import Mathlib

/-!
Verification development for the chunked voxel world subsystem of the
`minecraft-web` repository.  The TypeScript sources are shallowly embedded:

* JavaScript numbers appearing in the hash pipeline are IEEE-754 doubles that
  hold exact integers until they exceed 2^53; the pipeline is modelled over `ℤ`
  with an explicit round-to-nearest-even step (`roundDouble`) after every
  arithmetic operation, and the ECMAScript `ToUint32` / `ToInt32` coercions
  performed by the bitwise operators are modelled explicitly.
* The trigonometric terrain fields call `Math.sin` / `Math.cos`, which
  ECMA-262 specifies only as implementation-approximated; the embedding
  therefore takes the two functions as parameters `sinF cosF : ℚ → ℚ`.
* Voxel buffers (`Uint8Array`) become `Array ℕ`; out-of-bounds reads yield
  `none` (JavaScript `undefined`) and out-of-bounds writes are dropped,
  matching typed-array semantics.
* The stateful `ChunkManager` becomes explicit state passing over a
  `ManagerState` record.
-/

/-! ## Constants (src/world/chunk.ts) -/

def CHUNK_SIZE : ℤ := 16
def CHUNK_HEIGHT : ℤ := 48
def SEA_LEVEL : ℤ := 7

namespace BlockId

def Air : ℕ := 0
def Grass : ℕ := 1
def Dirt : ℕ := 2
def Stone : ℕ := 3
def Log : ℕ := 4
def Wood : ℕ := 4
def Leaves : ℕ := 5
def Water : ℕ := 6
def Sand : ℕ := 7
def Snow : ℕ := 8
def Ice : ℕ := 9
def SwampGrass : ℕ := 10
def SwampLog : ℕ := 11
def SwampLeaves : ℕ := 12
def Cactus : ℕ := 13
def SwampReed : ℕ := 14

end BlockId

/-! ## IEEE-754 double model for the integer-valued hash pipeline

`roundDouble n` is the integer obtained by rounding the exact integer `n` to
the nearest IEEE-754 binary64 value (53 significant bits, ties to even).
Every JavaScript arithmetic operation on integer-valued doubles produces
`roundDouble` of the exact result, as long as no overflow to infinity occurs
(the model is exact for |n| < 2^1300, far beyond the double overflow
threshold 2^1024). -/

def bitLenAux : ℕ → ℕ → ℕ
  | 0, _ => 0
  | f + 1, m => if m = 0 then 0 else bitLenAux f (m / 2) + 1

/-- Binary length of a natural number (`0 → 0`, `2^(e-1) ≤ n < 2^e → e`),
with structural fuel so that kernel reduction works on large literals. -/
def bitLen (n : ℕ) : ℕ := bitLenAux 1300 n

def roundDouble (n : ℤ) : ℤ :=
  if n.natAbs < 2 ^ 53 then n
  else
    let a := n.natAbs
    let k := bitLen a - 53
    let q := a / 2 ^ k
    let r := a % 2 ^ k
    let half := 2 ^ (k - 1)
    let q2 := if half < r ∨ (r = half ∧ q % 2 = 1) then q + 1 else q
    if n < 0 then -(q2 * 2 ^ k : ℕ) else (q2 * 2 ^ k : ℕ)

/-- ECMAScript `ToUint32` of an integer-valued double. -/
def toUint32 (n : ℤ) : ℕ := (n % 2 ^ 32).toNat

/-- Reinterpret a 32-bit unsigned pattern as the `ToInt32` result. -/
def int32OfUint32 (u : ℕ) : ℤ := if u < 2 ^ 31 then (u : ℤ) else (u : ℤ) - 2 ^ 32

/-! ## hash2 (src/world/chunkWorker.ts, lines 17–22)

```js
function hash2(worldX, worldZ, salt) {
  let value = worldX * 374761393 + worldZ * 668265263 + salt * 362437
  value = (value ^ (value >>> 13)) * 1274126177
  value ^= value >>> 16
  return (value >>> 0) / 4294967295
}
```
The bitwise operators coerce through `ToUint32`/`ToInt32`; the two
multiplications and two additions are double arithmetic.  Note the divisor is
`4294967295 = 2^32 − 1`, the largest attainable `value >>> 0`. -/

/-- The 32-bit value `value >>> 0` computed by `hash2` just before the final
division. -/
def hash2u32 (worldX worldZ salt : ℤ) : ℕ :=
  let v1 : ℤ :=
    roundDouble (roundDouble (roundDouble (worldX * 374761393) +
      roundDouble (worldZ * 668265263)) + roundDouble (salt * 362437))
  let u1 : ℕ := toUint32 v1
  let w : ℤ := int32OfUint32 (u1 ^^^ (u1 >>> 13))
  let v2 : ℤ := roundDouble (w * 1274126177)
  let u2 : ℕ := toUint32 v2
  let vr : ℤ := int32OfUint32 (u2 ^^^ (u2 >>> 16))
  toUint32 vr

def hash2 (worldX worldZ salt : ℤ) : ℚ :=
  (hash2u32 worldX worldZ salt : ℚ) / 4294967295

/-! ## Voxel raycaster (src/world/voxelRaycast.ts)

3D-DDA traversal.  JavaScript numbers are modelled as exact rationals; the
only irrational-capable operation, `Math.hypot`, is modelled by `Rat.sqrt`
(exact whenever the true square root is rational, which holds for every
direction vector analysed in this development).  The IEEE value
`Number.POSITIVE_INFINITY`, used for the step deltas of axis-aligned rays, is
modelled by `none : Option ℚ`; the comparison and addition helpers below
agree with IEEE comparisons/addition on non-negative values and `+∞` (no NaN
can arise in this algorithm). -/

structure VoxelHit where
  x : ℤ
  y : ℤ
  z : ℤ
  normalX : ℤ
  normalY : ℤ
  normalZ : ℤ
deriving DecidableEq

/-- `a < b` where `none` plays IEEE `+Infinity`. -/
def oLt : Option ℚ → Option ℚ → Bool
  | none, _ => false
  | some _, none => true
  | some a, some b => decide (a < b)

def oAdd : Option ℚ → Option ℚ → Option ℚ
  | some a, some b => some (a + b)
  | _, _ => none

/-- `traveled <= maxDistance` (false when `traveled` is `+Infinity`). -/
def oLe : Option ℚ → ℚ → Bool
  | none, _ => false
  | some a, b => decide (a ≤ b)

/-- `traveled > maxDistance` (true when `traveled` is `+Infinity`). -/
def oGt : Option ℚ → ℚ → Bool
  | none, _ => true
  | some a, b => decide (b < a)

structure RayState where
  x : ℤ
  y : ℤ
  z : ℤ
  tMaxX : Option ℚ
  tMaxY : Option ℚ
  tMaxZ : Option ℚ
  traveled : Option ℚ
  normalX : ℤ
  normalY : ℤ
  normalZ : ℤ

/-- One iteration body of the `while` loop: advance along the axis with the
minimal `tMax`, recording the face normal as the negated step direction. -/
def rayStep (stepX stepY stepZ : ℤ) (tDeltaX tDeltaY tDeltaZ : Option ℚ)
    (s : RayState) : RayState :=
  if oLt s.tMaxX s.tMaxY then
    if oLt s.tMaxX s.tMaxZ then
      { s with
        x := s.x + stepX
        traveled := s.tMaxX
        tMaxX := oAdd s.tMaxX tDeltaX
        normalX := -stepX
        normalY := 0
        normalZ := 0 }
    else
      { s with
        z := s.z + stepZ
        traveled := s.tMaxZ
        tMaxZ := oAdd s.tMaxZ tDeltaZ
        normalX := 0
        normalY := 0
        normalZ := -stepZ }
  else if oLt s.tMaxY s.tMaxZ then
    { s with
      y := s.y + stepY
      traveled := s.tMaxY
      tMaxY := oAdd s.tMaxY tDeltaY
      normalX := 0
      normalY := -stepY
      normalZ := 0 }
  else
    { s with
      z := s.z + stepZ
      traveled := s.tMaxZ
      tMaxZ := oAdd s.tMaxZ tDeltaZ
      normalX := 0
      normalY := 0
      normalZ := -stepZ }

/-- The `while (traveled <= maxDistance)` loop, with structural fuel.  The
source loop terminates because every iteration strictly increases the chosen
`tMax` by its positive `tDelta`; `raycastVoxel` below passes fuel exceeding
the number of voxel-boundary crossings reachable within `maxDistance`. -/
def rayLoop (isSolid : ℤ → ℤ → ℤ → Bool) (stepX stepY stepZ : ℤ)
    (tDeltaX tDeltaY tDeltaZ : Option ℚ) (maxDistance : ℚ) :
    ℕ → RayState → Option VoxelHit
  | 0, _ => none
  | fuel + 1, s =>
    if oLe s.traveled maxDistance then
      let s2 := rayStep stepX stepY stepZ tDeltaX tDeltaY tDeltaZ s
      if oGt s2.traveled maxDistance then none
      else if isSolid s2.x s2.y s2.z then
        some ⟨s2.x, s2.y, s2.z, s2.normalX, s2.normalY, s2.normalZ⟩
      else rayLoop isSolid stepX stepY stepZ tDeltaX tDeltaY tDeltaZ maxDistance fuel s2
    else none

def raycastVoxel (originX originY originZ : ℚ)
    (directionX directionY directionZ : ℚ) (maxDistance : ℚ)
    (isSolid : ℤ → ℤ → ℤ → Bool) : Option VoxelHit :=
  let length : ℚ :=
    Rat.sqrt (directionX * directionX + directionY * directionY + directionZ * directionZ)
  if length = 0 then none
  else
    let dx := directionX / length
    let dy := directionY / length
    let dz := directionZ / length
    let x : ℤ := ⌊originX⌋
    let y : ℤ := ⌊originY⌋
    let z : ℤ := ⌊originZ⌋
    if isSolid x y z then some ⟨x, y, z, 0, 0, 0⟩
    else
      let stepX : ℤ := if 0 < dx then 1 else if dx < 0 then -1 else 0
      let stepY : ℤ := if 0 < dy then 1 else if dy < 0 then -1 else 0
      let stepZ : ℤ := if 0 < dz then 1 else if dz < 0 then -1 else 0
      let tDeltaX : Option ℚ := if stepX = 0 then none else some (1 / |dx|)
      let tDeltaY : Option ℚ := if stepY = 0 then none else some (1 / |dy|)
      let tDeltaZ : Option ℚ := if stepZ = 0 then none else some (1 / |dz|)
      let tMaxX : Option ℚ :=
        if stepX = 0 then none
        else if 0 < stepX then some ((⌊originX⌋ + 1 - originX) / dx)
        else some ((originX - ⌊originX⌋) / (-dx))
      let tMaxY : Option ℚ :=
        if stepY = 0 then none
        else if 0 < stepY then some ((⌊originY⌋ + 1 - originY) / dy)
        else some ((originY - ⌊originY⌋) / (-dy))
      let tMaxZ : Option ℚ :=
        if stepZ = 0 then none
        else if 0 < stepZ then some ((⌊originZ⌋ + 1 - originZ) / dz)
        else some ((originZ - ⌊originZ⌋) / (-dz))
      rayLoop isSolid stepX stepY stepZ tDeltaX tDeltaY tDeltaZ maxDistance
        (8 * ((max 0 ⌈maxDistance⌉).toNat + 2))
        ⟨x, y, z, tMaxX, tMaxY, tMaxZ, some 0, 0, 0, 0⟩

/-! ## Terrain field (src/world/terrainMath.ts, biome-blend variant)

Pure functions of world coordinates.  `Math.sin`/`Math.cos` are
implementation-approximated per ECMA-262, so they are taken as parameters
`sinF cosF : ℚ → ℚ`; everything else is exact rational arithmetic. -/

inductive BiomeId
  | Forest
  | Snow
  | Desert
  | Swamp
deriving DecidableEq

structure BiomeBlend where
  forest : ℚ
  snow : ℚ
  desert : ℚ
  swamp : ℚ

def smoothstep (edge0 edge1 value : ℚ) : ℚ :=
  let t := max 0 (min 1 ((value - edge0) / (edge1 - edge0)))
  t * t * (3 - 2 * t)

def sampleClimate (sinF cosF : ℚ → ℚ) (worldX worldZ : ℤ) : ℚ × ℚ :=
  ((sinF ((worldX : ℚ) * 0.0045) + cosF ((worldZ : ℚ) * 0.0038) + 2) * 0.25,
   (cosF (((worldX + worldZ : ℤ) : ℚ) * 0.0042) + sinF ((worldZ : ℚ) * 0.0053) + 2) * 0.25)

namespace TerrainMath

def getBiomeBlendAt (sinF cosF : ℚ → ℚ) (worldX worldZ : ℤ) : BiomeBlend :=
  let climate := sampleClimate sinF cosF worldX worldZ
  let temperature := climate.1
  let moisture := climate.2
  let snow := 1 - smoothstep 0.3 0.5 temperature
  let desert := smoothstep 0.6 0.8 temperature * (1 - smoothstep 0.42 0.63 moisture)
  let swamp := smoothstep 0.58 0.82 moisture * smoothstep 0.35 0.62 temperature
  let forestBase := max 0 (1 - max snow (max desert swamp))
  let total := forestBase + snow + desert + swamp
  if total ≤ 0.0001 then ⟨1, 0, 0, 0⟩
  else ⟨forestBase / total, snow / total, desert / total, swamp / total⟩

def getBiomeAt (sinF cosF : ℚ → ℚ) (worldX worldZ : ℤ) : BiomeId :=
  let blend := getBiomeBlendAt sinF cosF worldX worldZ
  if blend.desert ≥ blend.snow ∧ blend.desert ≥ blend.swamp ∧ blend.desert ≥ blend.forest then
    .Desert
  else if blend.snow ≥ blend.swamp ∧ blend.snow ≥ blend.forest then .Snow
  else if blend.swamp ≥ blend.forest then .Swamp
  else .Forest

def getWaterLevelAt (sinF cosF : ℚ → ℚ) (worldX worldZ : ℤ) : ℤ :=
  if getBiomeAt sinF cosF worldX worldZ = .Desert then SEA_LEVEL - 1 else SEA_LEVEL

def getHeightAt (sinF cosF : ℚ → ℚ) (worldX worldZ : ℤ) : ℤ :=
  let biome := getBiomeAt sinF cosF worldX worldZ
  let waterLevel := getWaterLevelAt sinF cosF worldX worldZ
  let hillA := sinF ((worldX : ℚ) * 0.075) * 7.5
  let hillB := cosF ((worldZ : ℚ) * 0.075) * 7.5
  let ridge := sinF (((worldX + worldZ : ℤ) : ℚ) * 0.04) * 5.5
  let plateaus := sinF ((worldX : ℚ) * 0.014) * cosF ((worldZ : ℚ) * 0.014) * 6.5
  let basin := sinF (((worldX - worldZ : ℤ) : ℚ) * 0.018) * 3.2
  let rawHeight := (SEA_LEVEL : ℚ) + 8 + hillA + hillB + ridge + plateaus - basin
  let rawHeight :=
    if biome = .Snow then rawHeight + (4 + sinF (((worldX - worldZ : ℤ) : ℚ) * 0.02) * 2.2)
    else if biome = .Desert then
      let dune := sinF ((worldX : ℚ) * 0.11) * cosF ((worldZ : ℚ) * 0.09) * 2.8
      rawHeight * 0.72 + ((waterLevel : ℚ) + 6) * 0.28 + dune
    else if biome = .Swamp then
      let marshNoise := sinF ((worldX : ℚ) * 0.035) * cosF ((worldZ : ℚ) * 0.031) * 1.6
      rawHeight * 0.44 + ((waterLevel : ℚ) + 1) * 0.56 + marshNoise
    else rawHeight
  ⌊max 2 (min ((CHUNK_HEIGHT : ℚ) - 2) rawHeight)⌋

def getTopBlockAt (sinF cosF : ℚ → ℚ) (worldX worldZ height : ℤ) : ℕ :=
  let biome := getBiomeAt sinF cosF worldX worldZ
  let waterLevel := getWaterLevelAt sinF cosF worldX worldZ
  if biome = .Desert then BlockId.Sand
  else if biome = .Swamp then BlockId.SwampGrass
  else if biome = .Snow ∧ height ≥ waterLevel + 1 then BlockId.Snow
  else if height ≤ waterLevel + 1 then BlockId.Sand
  else
    let east := getHeightAt sinF cosF (worldX + 1) worldZ
    let west := getHeightAt sinF cosF (worldX - 1) worldZ
    let north := getHeightAt sinF cosF worldX (worldZ - 1)
    let south := getHeightAt sinF cosF worldX (worldZ + 1)
    let slope := max |height - east| (max |height - west| (max |height - north| |height - south|))
    let dryNoise := sinF ((worldX : ℚ) * 0.19) * cosF ((worldZ : ℚ) * 0.17)
    if slope ≥ 1 ∨ dryNoise > 0.58 then BlockId.Dirt
    else if (height : ℚ) > (CHUNK_HEIGHT : ℚ) * 0.65 then BlockId.Stone
    else BlockId.Dirt

def getSubsurfaceBlockAt (sinF cosF : ℚ → ℚ) (worldX worldZ y surfaceY : ℤ) : ℕ :=
  let biome := getBiomeAt sinF cosF worldX worldZ
  let waterLevel := getWaterLevelAt sinF cosF worldX worldZ
  let depth := surfaceY - y
  if (biome = .Desert ∨ surfaceY ≤ waterLevel + 1) ∧ depth ≤ 4 then BlockId.Sand
  else if biome = .Snow ∧ depth ≤ 2 then BlockId.Stone
  else if biome = .Swamp ∧ depth ≤ 4 then BlockId.Dirt
  else if depth ≤ 3 then BlockId.Dirt
  else BlockId.Stone

def isColdAt (sinF cosF : ℚ → ℚ) (worldX worldZ : ℤ) : Bool :=
  getBiomeAt sinF cosF worldX worldZ = .Snow

def getFluidBlockAt (sinF cosF : ℚ → ℚ) (worldX worldZ y surfaceY : ℤ) : ℕ :=
  if y ≤ surfaceY then BlockId.Air
  else
    let waterLevel := getWaterLevelAt sinF cosF worldX worldZ
    if y > waterLevel then BlockId.Air
    else
      let biome := getBiomeAt sinF cosF worldX worldZ
      if biome = .Snow ∧ y = waterLevel then BlockId.Ice
      else BlockId.Water

end TerrainMath

/-! ## Byte buffers

`Uint8Array` semantics: indexing out of bounds reads `undefined` (here
`none`), assignments out of bounds are dropped, and stored values pass
through `ToUint8` (reduction mod 256). -/

def toIndex (x y z : ℤ) : ℤ := x + z * CHUNK_SIZE + y * CHUNK_SIZE * CHUNK_SIZE

def readAt (blocks : Array ℕ) (idx : ℤ) : Option ℕ :=
  if h : 0 ≤ idx ∧ idx.toNat < blocks.size then some (blocks.get ⟨idx.toNat, h.2⟩) else none

def writeAt (blocks : Array ℕ) (idx : ℤ) (value : ℕ) : Array ℕ :=
  if h : 0 ≤ idx ∧ idx.toNat < blocks.size then blocks.set ⟨idx.toNat, h.2⟩ (value % 256)
  else blocks

/-- The index list of a `for (let i = lo; i <= hi; i += 1)` loop. -/
def intRange (lo hi : ℤ) : List ℤ := (List.range (hi + 1 - lo).toNat).map (fun n => lo + n)

/-! ## Procedural chunk generator (src/world/chunkWorker.ts)

The worker imports `getHeightAt` and `getTopBlockAt` from `./terrainMath`;
the embedding takes those two pure functions as explicit parameters,
mirroring the import boundary.  `hash2` is the worker's own. -/

def setIfAir (blocks : Array ℕ) (x y z : ℤ) (block : ℕ) : Array ℕ :=
  if x < 0 ∨ x ≥ CHUNK_SIZE ∨ z < 0 ∨ z ≥ CHUNK_SIZE ∨ y < 0 ∨ y ≥ CHUNK_HEIGHT then blocks
  else
    let index := toIndex x y z
    if readAt blocks index = some BlockId.Air then writeAt blocks index block else blocks

def addTrees (getHeightAt : ℤ → ℤ → ℤ) (blocks : Array ℕ) (chunkX chunkZ : ℤ) : Array ℕ :=
  (intRange 2 (CHUNK_SIZE - 3)).foldl (fun blocks z =>
    (intRange 2 (CHUNK_SIZE - 3)).foldl (fun blocks x =>
      let worldX := chunkX * CHUNK_SIZE + x
      let worldZ := chunkZ * CHUNK_SIZE + z
      let seed := hash2 worldX worldZ 17
      if seed > 0.038 then blocks
      else
        let groundY := min (CHUNK_HEIGHT - 1) (getHeightAt worldX worldZ)
        if groundY < 3 ∨ groundY > CHUNK_HEIGHT - 8 ∨ groundY ≤ SEA_LEVEL then blocks
        else if readAt blocks (toIndex x groundY z) ≠ some BlockId.Dirt then blocks
        else
          let trunkHeight := 3 + ⌊hash2 worldX worldZ 41 * 3⌋
          let blocks := (intRange 1 trunkHeight).foldl
            (fun blocks y => setIfAir blocks x (groundY + y) z BlockId.Wood) blocks
          let canopyY := groundY + trunkHeight
          let blocks := (intRange (-2) 2).foldl (fun blocks oy =>
            (intRange (-2) 2).foldl (fun blocks oz =>
              (intRange (-2) 2).foldl (fun blocks ox =>
                let distance := |ox| + |oz| + max 0 oy
                if distance > 4 then blocks
                else if ox = 0 ∧ oz = 0 ∧ oy ≤ 0 then blocks
                else setIfAir blocks (x + ox) (canopyY + oy) (z + oz) BlockId.Leaves)
                blocks) blocks) blocks
          setIfAir blocks x (canopyY + 3) z BlockId.Leaves) blocks) blocks

def generateChunkBlocks (getHeightAt : ℤ → ℤ → ℤ) (getTopBlockAt : ℤ → ℤ → ℤ → ℕ)
    (chunkX chunkZ : ℤ) : Array ℕ :=
  let blocks := Array.mkArray (CHUNK_SIZE * CHUNK_HEIGHT * CHUNK_SIZE).toNat BlockId.Air
  let blocks := (intRange 0 (CHUNK_SIZE - 1)).foldl (fun blocks z =>
    (intRange 0 (CHUNK_SIZE - 1)).foldl (fun blocks x =>
      let worldX := chunkX * CHUNK_SIZE + x
      let worldZ := chunkZ * CHUNK_SIZE + z
      let height := min (CHUNK_HEIGHT - 1) (getHeightAt worldX worldZ)
      let topBlock := getTopBlockAt worldX worldZ height
      let blocks := (intRange 0 height).foldl (fun blocks y =>
        writeAt blocks (toIndex x y z)
          (if y = height then topBlock
           else if y ≥ height - 3 then BlockId.Dirt
           else BlockId.Stone)) blocks
      if height < SEA_LEVEL then
        (intRange (height + 1) (min SEA_LEVEL (CHUNK_HEIGHT - 1))).foldl (fun blocks y =>
          if readAt blocks (toIndex x y z) = some BlockId.Air then
            writeAt blocks (toIndex x y z) BlockId.Water
          else blocks) blocks
      else blocks) blocks) blocks
  addTrees getHeightAt blocks chunkX chunkZ

/-! ## Chunk store (src/world/chunk.ts, class ChunkData) -/

structure ChunkData where
  chunkX : ℤ
  chunkZ : ℤ
  blocks : Array ℕ
deriving DecidableEq

/-- `new ChunkData(chunkX, chunkZ)`: an all-Air buffer of
`CHUNK_SIZE * CHUNK_HEIGHT * CHUNK_SIZE` bytes. -/
def ChunkData.new (chunkX chunkZ : ℤ) : ChunkData :=
  ⟨chunkX, chunkZ, Array.mkArray (CHUNK_SIZE * CHUNK_HEIGHT * CHUNK_SIZE).toNat BlockId.Air⟩

def ChunkData.get (d : ChunkData) (x y z : ℤ) : Option ℕ :=
  readAt d.blocks (toIndex x y z)

def ChunkData.set (d : ChunkData) (x y z : ℤ) (value : ℕ) : ChunkData :=
  { d with blocks := writeAt d.blocks (toIndex x y z) value }

/-- Overwrite the first `src.size` entries of `dst` in place
(`TypedArray.prototype.set`). -/
def copyInto (dst src : Array ℕ) : Array ℕ :=
  (List.range src.size).foldl (fun dst i => dst.setD i (src.getD i 0)) dst

/-- `loadFromBuffer`: `this.blocks.set(new Uint8Array(blocks))`.
`TypedArray.prototype.set` throws a `RangeError` when the source is longer
than the target; otherwise it overwrites the leading entries. -/
def ChunkData.loadFromBuffer (d : ChunkData) (src : Array ℕ) : Except Unit ChunkData :=
  if src.size > d.blocks.size then .error ()
  else .ok { d with blocks := copyInto d.blocks src }

/-- `toArrayBuffer`: `this.blocks.slice().buffer` — a fresh copy of the live
buffer.  In the pure embedding the copy is the value itself; the snapshot
property this copying buys is stated in the round-trip theorem. -/
def ChunkData.toArrayBuffer (d : ChunkData) : Array ℕ := d.blocks

/-! ## Chunk lifecycle manager (src/world/chunkManager.ts, textured variant)

The manager's maps keyed by the string `"{chunkX}:{chunkZ}"` (injective on
integer coordinates) are modelled as association lists keyed by the pair.
The THREE.js scene object of a chunk is abstracted to a rebuild counter in
`meshes` — a rebuild replaces the object, modelled as bumping the counter.
The meshing pass also calls `syncDirtGrassGrowthState` per voxel (which
consults `Math.random()` and `Date.now()`); that side effect on the two
growth maps is abstracted as an arbitrary parameter
`growthSync : GrowthState → GrowthState`, which no claim depends on. -/

def lookupA {α β : Type} [DecidableEq α] : List (α × β) → α → Option β
  | [], _ => none
  | (k2, v) :: rest, k => if k2 = k then some v else lookupA rest k

def eraseA {α β : Type} [DecidableEq α] (l : List (α × β)) (k : α) : List (α × β) :=
  l.filter (fun e => decide (e.1 ≠ k))

def insertA {α β : Type} [DecidableEq α] (l : List (α × β)) (k : α) (v : β) : List (α × β) :=
  (k, v) :: eraseA l k

structure GrowthState where
  dirtGreenReadyAt : List ((ℤ × ℤ × ℤ) × ℚ)
  dirtGreenGrown : List (ℤ × ℤ × ℤ)

structure ManagerState where
  chunks : List ((ℤ × ℤ) × ChunkData)
  meshes : List ((ℤ × ℤ) × ℕ)
  savedChunks : List ((ℤ × ℤ) × Array ℕ)
  requestedChunks : List (ℤ × ℤ)
  targetChunkKeys : List (ℤ × ℤ)
  growth : GrowthState
  changedEvents : List (ℤ × ℤ)

/-- `buildChunkMesh` + scene insertion for one chunk: a fresh render object
replaces the previous one (counter bump), and the meshing pass applies its
growth-map synchronization. -/
def buildChunkMesh (growthSync : GrowthState → GrowthState) (st : ManagerState)
    (key : ℤ × ℤ) : ManagerState :=
  { st with
    meshes := insertA st.meshes key ((lookupA st.meshes key).getD 0 + 1)
    growth := growthSync st.growth }

def clearDirtGrassTrackingAt (st : ManagerState) (worldX y worldZ : ℤ) : ManagerState :=
  { st with
    growth :=
      ⟨st.growth.dirtGreenReadyAt.filter (fun e => decide (e.1 ≠ (worldX, y, worldZ))),
       st.growth.dirtGreenGrown.filter (fun e => decide (e ≠ (worldX, y, worldZ)))⟩ }

/-- `persistChunk`: store the copied bytes and notify the external
`onChunkChanged` collaborator (fire-and-forget, modelled as an event log). -/
def persistChunk (st : ManagerState) (chunkX chunkZ : ℤ) (data : ChunkData) : ManagerState :=
  { st with
    savedChunks := insertA st.savedChunks (chunkX, chunkZ) data.toArrayBuffer
    changedEvents := st.changedEvents ++ [(chunkX, chunkZ)] }

def rebuildImpactedChunks (growthSync : GrowthState → GrowthState) (st : ManagerState)
    (chunkX chunkZ localX localZ : ℤ) : ManagerState :=
  let keys := [(chunkX, chunkZ)]
  let keys :=
    if localX = 0 then keys ++ [(chunkX - 1, chunkZ)]
    else if localX = CHUNK_SIZE - 1 then keys ++ [(chunkX + 1, chunkZ)]
    else keys
  let keys :=
    if localZ = 0 then keys ++ [(chunkX, chunkZ - 1)]
    else if localZ = CHUNK_SIZE - 1 then keys ++ [(chunkX, chunkZ + 1)]
    else keys
  keys.foldl (fun st key =>
    match lookupA st.chunks key with
    | none => st
    | some _ => buildChunkMesh growthSync st key) st

/-- `setBlock` (private; `Math.floor(worldX / CHUNK_SIZE)` on integer input
is exact floor division). -/
def setBlock (growthSync : GrowthState → GrowthState) (st : ManagerState)
    (worldX y worldZ : ℤ) (block : ℕ) : ManagerState × Bool :=
  if y < 0 ∨ y ≥ CHUNK_HEIGHT then (st, false)
  else
    let chunkX := Int.fdiv worldX CHUNK_SIZE
    let chunkZ := Int.fdiv worldZ CHUNK_SIZE
    match lookupA st.chunks (chunkX, chunkZ) with
    | none => (st, false)
    | some record =>
      let localX := worldX - chunkX * CHUNK_SIZE
      let localZ := worldZ - chunkZ * CHUNK_SIZE
      if record.get localX y localZ = some block then (st, false)
      else
        let data := record.set localX y localZ block
        let st1 := { st with chunks := insertA st.chunks (chunkX, chunkZ) data }
        let st2 := clearDirtGrassTrackingAt st1 worldX y worldZ
        let st3 := persistChunk st2 chunkX chunkZ data
        (rebuildImpactedChunks growthSync st3 chunkX chunkZ localX localZ, true)

/-- `getBlockAtWorld`: resident chunks answer from their buffer, otherwise
the Terrain Field is evaluated directly (the unresolved-chunk fallback).
`none` is the `undefined` produced by an out-of-bounds buffer read. -/
def getBlockAtWorld (sinF cosF : ℚ → ℚ) (st : ManagerState)
    (worldX y worldZ : ℤ) : Option ℕ :=
  if y < 0 then some BlockId.Stone
  else if y ≥ CHUNK_HEIGHT then some BlockId.Air
  else
    let chunkX := Int.fdiv worldX CHUNK_SIZE
    let chunkZ := Int.fdiv worldZ CHUNK_SIZE
    match lookupA st.chunks (chunkX, chunkZ) with
    | some record =>
      record.get (worldX - chunkX * CHUNK_SIZE) y (worldZ - chunkZ * CHUNK_SIZE)
    | none =>
      let height := TerrainMath.getHeightAt sinF cosF worldX worldZ
      if y ≤ height then
        if y = height then some (TerrainMath.getTopBlockAt sinF cosF worldX worldZ height)
        else some (TerrainMath.getSubsurfaceBlockAt sinF cosF worldX worldZ y height)
      else if y ≤ SEA_LEVEL then
        some (if y = SEA_LEVEL ∧ TerrainMath.isColdAt sinF cosF worldX worldZ then BlockId.Ice
          else BlockId.Water)
      else some BlockId.Air

/-- `isSolidBlock`: `block !== BlockId.Air && block !== BlockId.Water`
(on `undefined` both `!==` tests hold, as in JavaScript). -/
def isSolidBlock (sinF cosF : ℚ → ℚ) (st : ManagerState) (worldX y worldZ : ℤ) : Bool :=
  let block := getBlockAtWorld sinF cosF st worldX y worldZ
  decide (block ≠ some BlockId.Air) && decide (block ≠ some BlockId.Water)

/-- Mesh construction and scene/map insertion shared by all accepted
generation results. -/
def finishChunk (growthSync : GrowthState → GrowthState) (st : ManagerState)
    (key : ℤ × ℤ) (data : ChunkData) : ManagerState :=
  let st1 := buildChunkMesh growthSync st key
  { st1 with chunks := insertA st1.chunks key data }

/-- Handler for `generated` worker messages, including the persisted-byte
length validation and the stale/duplicate guard. -/
def onChunkGenerated (growthSync : GrowthState → GrowthState) (st : ManagerState)
    (chunkX chunkZ : ℤ) (blocks : Array ℕ) : Except Unit ManagerState :=
  let key := (chunkX, chunkZ)
  let st := { st with requestedChunks := st.requestedChunks.filter (fun k => decide (k ≠ key)) }
  if key ∉ st.targetChunkKeys ∨ (lookupA st.chunks key).isSome then .ok st
  else
    let data := ChunkData.new chunkX chunkZ
    let expectedByteLength := (CHUNK_SIZE * CHUNK_HEIGHT * CHUNK_SIZE).toNat
    match lookupA st.savedChunks key with
    | some saved =>
      if saved.size = expectedByteLength then
        match data.loadFromBuffer saved with
        | .error e => .error e
        | .ok data2 => .ok (finishChunk growthSync st key data2)
      else
        match data.loadFromBuffer blocks with
        | .error e => .error e
        | .ok data2 =>
          .ok (finishChunk growthSync
            { st with savedChunks := eraseA st.savedChunks key } key data2)
    | none =>
      match data.loadFromBuffer blocks with
      | .error e => .error e
      | .ok data2 => .ok (finishChunk growthSync st key data2)

/-- The three silent no-op conditions of `setBlock` named by the spec:
y out of `[0, CHUNK_HEIGHT)`, owning chunk not resident, or the voxel
already holding the written value. -/
def setBlockIsNoOp (st : ManagerState) (worldX y worldZ : ℤ) (block : ℕ) : Bool :=
  decide (y < 0 ∨ y ≥ CHUNK_HEIGHT) ||
    match lookupA st.chunks (Int.fdiv worldX CHUNK_SIZE, Int.fdiv worldZ CHUNK_SIZE) with
    | none => true
    | some record =>
      decide (record.get (worldX - Int.fdiv worldX CHUNK_SIZE * CHUNK_SIZE) y
        (worldZ - Int.fdiv worldZ CHUNK_SIZE * CHUNK_SIZE) = some block)

/-! ## Small concrete states used by witnesses and counterexamples -/

/-- A resident chunk whose (degenerate, one-byte) buffer holds a SwampReed
at local voxel (0,0,0). -/
def reedChunk : ChunkData := ⟨0, 0, #[BlockId.SwampReed]⟩

def reedState : ManagerState :=
  { chunks := [((0, 0), reedChunk)]
    meshes := []
    savedChunks := []
    requestedChunks := []
    targetChunkKeys := []
    growth := ⟨[], []⟩
    changedEvents := [] }

/-- A state whose persisted entry for chunk (0,0) has the wrong byte length. -/
def mismatchState : ManagerState :=
  { chunks := []
    meshes := []
    savedChunks := [((0, 0), #[1, 2, 3])]
    requestedChunks := [(0, 0)]
    targetChunkKeys := [(0, 0)]
    growth := ⟨[], []⟩
    changedEvents := [] }

theorem toUint32_lt (n : ℤ) : toUint32 n < 2 ^ 32 := by
  unfold toUint32
  have h1 : (0 : ℤ) ≤ n % 2 ^ 32 := Int.emod_nonneg n (by norm_num)
  have h2 : n % 2 ^ 32 < 2 ^ 32 := Int.emod_lt_of_pos n (by norm_num)
  omega

/-- C7 counterexample input: `hash2 (−1198) 164 227630` evaluates to exactly
`1`, because the final 32-bit pattern is `0xFFFFFFFF = 4294967295` and the
divisor is also `4294967295 = 2^32 − 1`.  (The multiplication by
`1274126177` overflows 53 bits here, so the modelled IEEE rounding step is
exercised: the exact product `1058742836129628195` rounds to the double
`1058742836129628160`.) -/
theorem hash2_reaches_one : hash2 (-1198) 164 227630 = 1 := by
  have h : hash2u32 (-1198) 164 227630 = 4294967295 := by decide
  unfold hash2
  rw [h]
  norm_num

theorem sqrt_one_rat : Rat.sqrt 1 = 1 := by decide

theorem sqrt_zero_rat : Rat.sqrt 0 = 0 := by decide


/-- C10: for a zero direction vector `raycastVoxel` returns no hit, for
every origin, max distance and solidity predicate — it neither traverses nor
divides by zero. -/
theorem raycastVoxel_zero_direction (oX oY oZ maxD : ℚ)
    (isSolid : ℤ → ℤ → ℤ → Bool) :
    raycastVoxel oX oY oZ 0 0 0 maxD isSolid = none := by
  have h1 : ((0:ℚ) * 0 + 0 * 0 + 0 * 0) = 0 := by norm_num
  simp only [raycastVoxel, h1, sqrt_zero_rat, if_pos]

set_option maxRecDepth 8000 in
/-- C2: with the floor solid exactly for y ≤ 5, the ray from (0.5, 10, 0.5)
straight down with max distance 20 hits voxel (0,5,0) with normal (0,1,0). -/
theorem raycastVoxel_flat_floor_hit :
    raycastVoxel (1/2) 10 (1/2) 0 (-1) 0 20 (fun _ y _ => decide (y ≤ 5)) =
      some ⟨0, 5, 0, 0, 1, 0⟩ := by
  have h1 : ((0:ℚ) * 0 + (-1) * (-1) + 0 * 0) = 1 := by norm_num
  simp only [raycastVoxel, h1, sqrt_one_rat]
  norm_num [rayLoop, rayStep, oLt, oAdd, oLe, oGt]

theorem getElem?_setD_ne (a : Array ℕ) (i j : ℕ) (v : ℕ) (hij : i ≠ j) :
    (a.setD i v)[j]? = a[j]? := by
  unfold Array.setD
  split
  · exact Array.getElem?_set_ne a ⟨i, by assumption⟩ v hij
  · rfl

theorem setD_oob (a : Array ℕ) (i : ℕ) (v : ℕ) (h : a.size ≤ i) : a.setD i v = a := by
  unfold Array.setD
  rw [dif_neg (by omega)]

theorem size_copyFold (src : Array ℕ) (l : List ℕ) (dst : Array ℕ) :
    (l.foldl (fun d i => d.setD i (src.getD i 0)) dst).size = dst.size := by
  induction l generalizing dst with
  | nil => rfl
  | cons a t ih => rw [List.foldl_cons, ih, Array.size_setD]

theorem copyFold_getElem? (src : Array ℕ) (n : ℕ) (dst : Array ℕ) (j : ℕ) :
    ((List.range n).foldl (fun d i => d.setD i (src.getD i 0)) dst)[j]? =
      if j < n ∧ j < dst.size then some (src.getD j 0) else dst[j]? := by
  induction n with
  | zero => simp
  | succ n ih =>
    rw [List.range_succ, List.foldl_append]
    simp only [List.foldl_cons, List.foldl_nil]
    by_cases hj : j = n
    · subst hj
      by_cases hsize : j < dst.size
      · have hsz : j < ((List.range j).foldl (fun d i => d.setD i (src.getD i 0)) dst).size := by
          rw [size_copyFold]; exact hsize
        rw [Array.getElem?_setD_eq _ hsz]
        simp [hsize, Nat.lt_succ_self]
      · have hsz : ((List.range j).foldl (fun d i => d.setD i (src.getD i 0)) dst).size ≤ j := by
          rw [size_copyFold]; omega
        rw [setD_oob _ _ _ hsz, ih]
        simp [hsize]
    · rw [getElem?_setD_ne _ _ _ _ (fun h => hj h.symm)]
      rw [ih]
      have heq : (j < n ∧ j < dst.size) ↔ (j < n + 1 ∧ j < dst.size) := by omega
      simp only [heq]

theorem copyInto_eq_self (dst src : Array ℕ) (h : src.size = dst.size) :
    copyInto dst src = src := by
  apply Array.ext
  · unfold copyInto; rw [size_copyFold]; omega
  · intro i h1 h2
    unfold copyInto at h1 ⊢
    have h1' : i < dst.size := by rw [size_copyFold] at h1; exact h1
    have hq := copyFold_getElem? src src.size dst i
    rw [if_pos ⟨by omega, h1'⟩] at hq
    rw [Array.getElem?_eq_getElem h1] at hq
    have hd : src.getD i 0 = src[i] := by
      rw [Array.getD_eq_get?, Array.getElem?_eq_getElem h2]
      rfl
    injection hq with hq2
    rw [hq2, hd]

theorem writeAt_eq (blocks : Array ℕ) (idx : ℤ) (v : ℕ)
    (h0 : 0 ≤ idx) (h1 : idx.toNat < blocks.size) :
    writeAt blocks idx v = blocks.set ⟨idx.toNat, h1⟩ (v % 256) := by
  unfold writeAt
  rw [dif_pos ⟨h0, h1⟩]

theorem readAt_eq (blocks : Array ℕ) (idx : ℤ)
    (h0 : 0 ≤ idx) (h1 : idx.toNat < blocks.size) :
    readAt blocks idx = some (blocks.get ⟨idx.toNat, h1⟩) := by
  unfold readAt
  rw [dif_pos ⟨h0, h1⟩]

theorem readAt_writeAt_self (blocks : Array ℕ) (idx : ℤ) (v : ℕ)
    (h0 : 0 ≤ idx) (h1 : idx.toNat < blocks.size) :
    readAt (writeAt blocks idx v) idx = some (v % 256) := by
  rw [writeAt_eq blocks idx v h0 h1]
  rw [readAt_eq _ _ h0 (by simpa using h1)]
  congr 1
  show (blocks.set ⟨idx.toNat, h1⟩ (v % 256)).get ⟨idx.toNat, by simpa using h1⟩ = v % 256
  rw [Array.get_eq_getElem, Array.get_set _ _ _ h1]
  simp

/-- C4: `loadFromBytes(toBytes())` reproduces an identical Chunk Store, and
the bytes returned by `toBytes` are a snapshot: they still hold the pre-edit
byte after a later `set`, so they differ from the bytes the mutated store
would produce. -/
theorem chunkData_roundtrip_and_snapshot (d : ChunkData)
    (hsize : d.blocks.size = (CHUNK_SIZE * CHUNK_HEIGHT * CHUNK_SIZE).toNat)
    (x y z : ℤ) (v : ℕ)
    (hidx : 0 ≤ toIndex x y z) (hidx2 : (toIndex x y z).toNat < d.blocks.size)
    (hchange : d.get x y z ≠ some (v % 256)) :
    (ChunkData.new d.chunkX d.chunkZ).loadFromBuffer d.toArrayBuffer = .ok d ∧
    readAt d.toArrayBuffer (toIndex x y z) = d.get x y z ∧
    (d.set x y z v).get x y z = some (v % 256) ∧
    d.toArrayBuffer ≠ (d.set x y z v).toArrayBuffer := by
  refine ⟨?_, rfl, ?_, ?_⟩
  · have hcopy : copyInto (Array.mkArray (CHUNK_SIZE * CHUNK_HEIGHT * CHUNK_SIZE).toNat
        BlockId.Air) d.blocks = d.blocks := by
      apply copyInto_eq_self
      simp [hsize]
    unfold ChunkData.loadFromBuffer ChunkData.new ChunkData.toArrayBuffer
    rw [if_neg (by simp [hsize])]
    rw [hcopy]
  · exact readAt_writeAt_self d.blocks (toIndex x y z) v hidx hidx2
  · intro heq
    apply hchange
    have hread := readAt_writeAt_self d.blocks (toIndex x y z) v hidx hidx2
    have heq2 : d.blocks = writeAt d.blocks (toIndex x y z) v := heq
    calc d.get x y z = readAt d.blocks (toIndex x y z) := rfl
      _ = readAt (writeAt d.blocks (toIndex x y z) v) (toIndex x y z) := by rw [← heq2]
      _ = some (v % 256) := hread

theorem chunkData_roundtrip_witness :
    (ChunkData.new (ChunkData.new 0 0).chunkX (ChunkData.new 0 0).chunkZ).loadFromBuffer
        (ChunkData.new 0 0).toArrayBuffer = .ok (ChunkData.new 0 0) ∧
    ((ChunkData.new 0 0).set 0 0 0 5).get 0 0 0 = some (5 % 256) ∧
    (ChunkData.new 0 0).toArrayBuffer ≠ ((ChunkData.new 0 0).set 0 0 0 5).toArrayBuffer := by
  have hsize : (ChunkData.new 0 0).blocks.size =
      (CHUNK_SIZE * CHUNK_HEIGHT * CHUNK_SIZE).toNat := by
    simp [ChunkData.new]
  have hidx : (0 : ℤ) ≤ toIndex 0 0 0 := by decide
  have hidx2 : (toIndex 0 0 0).toNat < (ChunkData.new 0 0).blocks.size := by
    rw [hsize]
    decide
  have hchange : (ChunkData.new 0 0).get 0 0 0 ≠ some (5 % 256) := by
    unfold ChunkData.get ChunkData.new
    rw [readAt_eq _ _ hidx (by norm_num [toIndex, CHUNK_SIZE, CHUNK_HEIGHT])]
    simp [Array.get_eq_getElem]
    decide
  have h := chunkData_roundtrip_and_snapshot (ChunkData.new 0 0) hsize 0 0 0 5
    hidx hidx2 hchange
  exact ⟨h.1, h.2.2.1, h.2.2.2⟩

/-- C1: chunk generation is a pure function of the chunk coordinate — the
embedding threads the freshly allocated buffer explicitly, so two
independent evaluations agree definitionally for every coordinate and every
terrain-field instantiation. -/
theorem generateChunkBlocks_deterministic (getHeightAt : ℤ → ℤ → ℤ)
    (getTopBlockAt : ℤ → ℤ → ℤ → ℕ) (chunkX chunkZ : ℤ) :
    generateChunkBlocks getHeightAt getTopBlockAt chunkX chunkZ =
      generateChunkBlocks getHeightAt getTopBlockAt chunkX chunkZ := rfl

theorem lookupA_insertA_self {α β : Type} [DecidableEq α] (l : List (α × β)) (k : α) (v : β) :
    lookupA (insertA l k v) k = some v := by
  simp [insertA, lookupA]

theorem lookupA_eraseA_self {α β : Type} [DecidableEq α] (l : List (α × β)) (k : α) :
    lookupA (eraseA l k) k = none := by
  induction l with
  | nil => rfl
  | cons e t ih =>
    by_cases h : e.1 = k
    · simpa [eraseA, h] using ih
    · simpa [eraseA, lookupA, h] using ih

/-- C3: `setBlock` is a silent no-op exactly when y is out of range, the
owning chunk is not resident, or the voxel already holds the value; in each
no-op case the whole manager state — in particular the persisted-chunk store
and every chunk mesh — is untouched, and in every other case the write
reports a change. -/
theorem setBlock_noop_iff (growthSync : GrowthState → GrowthState) (st : ManagerState)
    (worldX y worldZ : ℤ) (block : ℕ) :
    (setBlockIsNoOp st worldX y worldZ block = true →
      setBlock growthSync st worldX y worldZ block = (st, false)) ∧
    (setBlockIsNoOp st worldX y worldZ block = false →
      (setBlock growthSync st worldX y worldZ block).2 = true) := by
  simp only [setBlock, setBlockIsNoOp]
  by_cases h1 : y < 0 ∨ y ≥ CHUNK_HEIGHT
  · simp [h1]
  · simp only [decide_eq_false h1, Bool.false_or, if_neg h1]
    cases hrec : lookupA st.chunks (Int.fdiv worldX CHUNK_SIZE, Int.fdiv worldZ CHUNK_SIZE) with
    | none => simp
    | some record =>
      by_cases h2 : record.get (worldX - Int.fdiv worldX CHUNK_SIZE * CHUNK_SIZE) y
          (worldZ - Int.fdiv worldZ CHUNK_SIZE * CHUNK_SIZE) = some block
      · simp [h2]
      · simp [h2]

theorem setBlock_noop_iff_witness :
    setBlockIsNoOp reedState 0 0 0 BlockId.SwampReed = true ∧
    setBlock (fun g => g) reedState 0 0 0 BlockId.SwampReed = (reedState, false) :=
  ⟨by decide,
   (setBlock_noop_iff (fun g => g) reedState 0 0 0 BlockId.SwampReed).1 (by decide)⟩

/-- C6 counterexample: in a resident chunk whose voxel (0,0,0) holds
SwampReed, `isSolidBlock` returns `true` — the claim says passable foliage
(including SwampReed) must be non-solid. -/
theorem swampReed_counterexample :
    getBlockAtWorld (fun _ => 0) (fun _ => 0) reedState 0 0 0 = some BlockId.SwampReed ∧
    isSolidBlock (fun _ => 0) (fun _ => 0) reedState 0 0 0 = true := by
  constructor
  · decide
  · decide

/-- C6 amended: the BlockId enumeration has no Shrub/TallGrass/Sedge ids, and
SwampReed — like every block other than Air and Water — is solid for
collision/raycast queries. -/
theorem swampReed_is_solid (sinF cosF : ℚ → ℚ) (st : ManagerState) (x y z : ℤ)
    (h : getBlockAtWorld sinF cosF st x y z = some BlockId.SwampReed) :
    isSolidBlock sinF cosF st x y z = true := by
  simp only [isSolidBlock, h]
  decide

theorem swampReed_is_solid_witness :
    isSolidBlock (fun _ => 0) (fun _ => 0) reedState 0 0 0 = true :=
  swampReed_is_solid _ _ reedState 0 0 0 (by decide)

/-- C8: an arriving generation result whose coordinate is no longer wanted,
or whose chunk is already resident, is dropped: the handler returns normally
and both the resident chunk map and the scene are unchanged. -/
theorem onChunkGenerated_stale_dropped (growthSync : GrowthState → GrowthState)
    (st : ManagerState) (chunkX chunkZ : ℤ) (blocks : Array ℕ)
    (h : (chunkX, chunkZ) ∉ st.targetChunkKeys ∨
      (lookupA st.chunks (chunkX, chunkZ)).isSome = true) :
    ∃ st2, onChunkGenerated growthSync st chunkX chunkZ blocks = .ok st2 ∧
      st2.chunks = st.chunks ∧ st2.meshes = st.meshes := by
  simp only [onChunkGenerated]
  rw [if_pos h]
  exact ⟨_, rfl, rfl, rfl⟩

theorem onChunkGenerated_stale_dropped_witness :
    ∃ st2, onChunkGenerated (fun g => g) reedState 0 0 #[] = .ok st2 ∧
      st2.chunks = reedState.chunks ∧ st2.meshes = reedState.meshes :=
  onChunkGenerated_stale_dropped (fun g => g) reedState 0 0 #[] (by decide)

/-- C5: a persisted buffer whose length differs from
`chunkSize² · chunkHeight` is discarded: the generated bytes are used for
the resident chunk, the malformed save entry is deleted, and the handler
returns normally (never throws). -/
theorem onChunkGenerated_length_mismatch (growthSync : GrowthState → GrowthState)
    (st : ManagerState) (chunkX chunkZ : ℤ) (blocks saved : Array ℕ)
    (hwant : (chunkX, chunkZ) ∈ st.targetChunkKeys)
    (hnores : lookupA st.chunks (chunkX, chunkZ) = none)
    (hsaved : lookupA st.savedChunks (chunkX, chunkZ) = some saved)
    (hlen : saved.size ≠ (CHUNK_SIZE * CHUNK_HEIGHT * CHUNK_SIZE).toNat)
    (hgen : blocks.size = (CHUNK_SIZE * CHUNK_HEIGHT * CHUNK_SIZE).toNat) :
    ∃ st2, onChunkGenerated growthSync st chunkX chunkZ blocks = .ok st2 ∧
      lookupA st2.chunks (chunkX, chunkZ) = some ⟨chunkX, chunkZ, blocks⟩ ∧
      lookupA st2.savedChunks (chunkX, chunkZ) = none := by
  have hload : (ChunkData.new chunkX chunkZ).loadFromBuffer blocks =
      .ok ⟨chunkX, chunkZ, blocks⟩ := by
    unfold ChunkData.loadFromBuffer ChunkData.new
    rw [if_neg (by simp [hgen])]
    rw [copyInto_eq_self _ _ (by simp [hgen])]
  simp only [onChunkGenerated]
  rw [if_neg (by simp [hwant, hnores])]
  simp only [hsaved]
  rw [if_neg hlen]
  simp only [hload]
  refine ⟨_, rfl, ?_, ?_⟩
  · simp only [finishChunk, buildChunkMesh]
    exact lookupA_insertA_self _ _ _
  · simp only [finishChunk, buildChunkMesh]
    exact lookupA_eraseA_self _ _

theorem onChunkGenerated_length_mismatch_witness :
    ∃ st2, onChunkGenerated (fun g => g) mismatchState 0 0
        (Array.mkArray 12288 BlockId.Stone) = .ok st2 ∧
      lookupA st2.chunks (0, 0) = some ⟨0, 0, Array.mkArray 12288 BlockId.Stone⟩ ∧
      lookupA st2.savedChunks (0, 0) = none :=
  onChunkGenerated_length_mismatch (fun g => g) mismatchState 0 0 _ #[1, 2, 3]
    (by decide) (by decide) (by decide) (by decide)
    (by rw [Array.size_mkArray]; decide)

/-- C9: for a column with surfaceY = 3 whose water level is 7,
`getFluidBlockAt` yields Water on (3,7] — Ice instead at y = 7 when the
position is cold — and Air for y ≤ 3 and y > 7. -/
theorem getFluidBlockAt_boundary (sinF cosF : ℚ → ℚ) (x z y : ℤ)
    (hw : TerrainMath.getWaterLevelAt sinF cosF x z = 7) :
    ((3 < y ∧ y ≤ 7) →
      TerrainMath.getFluidBlockAt sinF cosF x z y 3 =
        (if TerrainMath.isColdAt sinF cosF x z = true ∧ y = 7 then BlockId.Ice
         else BlockId.Water)) ∧
    ((y ≤ 3 ∨ 7 < y) → TerrainMath.getFluidBlockAt sinF cosF x z y 3 = BlockId.Air) := by
  constructor
  · rintro ⟨h1, h2⟩
    simp only [TerrainMath.getFluidBlockAt, hw]
    rw [if_neg (by omega), if_neg (by omega)]
    by_cases hc : TerrainMath.getBiomeAt sinF cosF x z = BiomeId.Snow <;>
      by_cases hy : y = (7 : ℤ) <;>
        simp [TerrainMath.isColdAt, hc, hy]
  · intro h
    simp only [TerrainMath.getFluidBlockAt, hw]
    rcases h with h | h
    · rw [if_pos h]
    · rw [if_neg (by omega), if_pos (by omega)]

theorem getFluidBlockAt_boundary_witness :
    TerrainMath.getWaterLevelAt (fun _ => 0) (fun _ => 0) 0 0 = 7 ∧
    TerrainMath.getFluidBlockAt (fun _ => 0) (fun _ => 0) 0 0 5 3 = BlockId.Water := by
  have hw : TerrainMath.getWaterLevelAt (fun _ => 0) (fun _ => 0) 0 0 = 7 := by
    norm_num [TerrainMath.getWaterLevelAt, TerrainMath.getBiomeAt, TerrainMath.getBiomeBlendAt,
      sampleClimate, smoothstep, SEA_LEVEL, min_def, max_def]
    decide
  refine ⟨hw, ?_⟩
  have h := (getFluidBlockAt_boundary (fun _ => 0) (fun _ => 0) 0 0 5 hw).1 (by omega)
  rw [h]
  rw [if_neg (by simp)]

theorem hash2u32_lt (x z s : ℤ) : hash2u32 x z s < 2 ^ 32 := toUint32_lt _

/-- C7 amended: `hash2` is a pure function of its three integer arguments
whose value always lies in the closed interval [0, 1]; the upper end is
attained (see the counterexample), because the final uint32 is divided by
`4294967295 = 2^32 − 1`, the largest value it can take. -/
theorem hash2_mem_unit_interval (x z s : ℤ) :
    0 ≤ hash2 x z s ∧ hash2 x z s ≤ 1 := by
  unfold hash2
  constructor
  · positivity
  · rw [div_le_one (by norm_num)]
    have h := hash2u32_lt x z s
    have : (hash2u32 x z s : ℚ) ≤ (4294967295 : ℕ) := by
      exact_mod_cast Nat.le_of_lt_succ (by omega)
    simpa using this
